import Mathlib

/-!
Verification development for `task3_functions.py`: a shallow embedding in
Lean 4 of the four utility functions (the preprocessing constants, the
`view_grid` display helper, the `train_model` training driver, the
`visualize_model` qualitative visualizer, and the `explore_wrong_5x5_rgb`
error explorer), together with theorems about their behaviour.

External framework collaborators (model forward pass, optimizer, scheduler,
loss) are opaque in the Python code; they appear here as parameters of a
`TrainEnv` structure.  Machine floating point is embedded as `ℚ`; tensors of
class ids as `ℕ`; batches as Lean lists in iteration order.
-/

namespace Task3

/-! ### Normalization constants (`data_transforms` / `view_grid`)

Both transform pipelines use `Normalize([0.485, 0.456, 0.406],
[0.229, 0.224, 0.225])`; `view_grid` and the error explorer invert it with
`std * inp + mean` followed by `np.clip(inp, 0, 1)`. -/

/-- Per-channel mean `[0.485, 0.456, 0.406]` from `data_transforms` and
`view_grid`. -/
def normMean : Fin 3 → ℚ
  | 0 => 0.485
  | 1 => 0.456
  | 2 => 0.406

/-- Per-channel standard deviation `[0.229, 0.224, 0.225]` from
`data_transforms` and `view_grid`. -/
def normStd : Fin 3 → ℚ
  | 0 => 0.229
  | 1 => 0.224
  | 2 => 0.225

/-- `transforms.Normalize`: per-channel `(x - mean) / std`. -/
def normalizeChan (c : Fin 3) (x : ℚ) : ℚ :=
  (x - normMean c) / normStd c

/-- The denormalization used by `view_grid` and `explore_wrong_5x5_rgb`:
`std * inp + mean` followed by `np.clip(inp, 0, 1)`. -/
def denormChan (c : Fin 3) (y : ℚ) : ℚ :=
  min 1 (max 0 (normStd c * y + normMean c))

/-! ### Training driver (`train_model`)

The driver is parametric in the opaque collaborators: `trainBatch` is one
train-phase batch step (`zero_grad`; forward; backward; `optimizer.step()`),
mapping model parameters and optimizer state (under the current scheduler
state, which fixes the learning rate) to new parameters and optimizer state.
`valCorrect` is the eval-mode forward pass of one validation batch followed
by `torch.sum(preds == labels)`; in eval mode the forward pass does not
change the model's `state_dict`.  `schedStep` is `scheduler.step()`. -/

/-- One observable event of a `train_model` run: processing a train batch
(which includes the optimizer step), a `scheduler.step()` call, or
processing a validation batch. -/
inductive TEvent
  | trainBatch
  | schedStep
  | valBatch
deriving DecidableEq

/-- The opaque collaborators and data of one `train_model` call.
`P` is the model parameter state (`state_dict`), `O` the optimizer state,
`S` the scheduler state, `B` a batch. -/
structure TrainEnv (P O S B : Type) where
  trainBatch : P → O → S → B → P × O
  valCorrect : P → B → ℕ
  schedStep : S → S
  trainLoader : List B
  valLoader : List B
  valSize : ℕ

variable {P O S B : Type}

/-- The train phase of one epoch: iterate the train loader, performing one
`trainBatch` step per batch (emitting one `TEvent.trainBatch` each). -/
def runTrainPhase (env : TrainEnv P O S B) (p : P) (o : O) (s : S) :
    (P × O) × List TEvent :=
  env.trainLoader.foldl
    (fun acc b => (env.trainBatch acc.1.1 acc.1.2 s b, acc.2 ++ [TEvent.trainBatch]))
    ((p, o), [])

/-- The validation phase of one epoch: iterate the val loader accumulating
`running_corrects` (emitting one `TEvent.valBatch` each); eval-mode forward
passes leave the parameters unchanged. -/
def runValPhase (env : TrainEnv P O S B) (p : P) : ℕ × List TEvent :=
  env.valLoader.foldl
    (fun acc b => (acc.1 + env.valCorrect p b, acc.2 ++ [TEvent.valBatch]))
    (0, [])

/-- `epoch_acc` of the validation phase at parameters `p`:
`running_corrects / dataset_sizes['val']`. -/
def valAcc (env : TrainEnv P O S B) (p : P) : ℚ :=
  ((runValPhase env p).1 : ℚ) / (env.valSize : ℚ)

/-- The mutable state threaded through the epoch loop of `train_model`:
model parameters, optimizer and scheduler state, and the best-snapshot
bookkeeping (`best_model_wts`, `best_acc`). -/
structure TState (P O S : Type) where
  params : P
  opt : O
  sched : S
  bestWts : P
  bestAcc : ℚ

/-- One iteration of the epoch loop of `train_model`: the train phase, then
`scheduler.step()`, then the validation phase, then the best-snapshot update
`if phase == 'val' and epoch_acc > best_acc`. -/
def runEpoch (env : TrainEnv P O S B) (st : TState P O S) :
    TState P O S × List TEvent :=
  let tp := runTrainPhase env st.params st.opt st.sched
  let p := tp.1.1
  let o := tp.1.2
  let s := env.schedStep st.sched
  let vp := runValPhase env p
  let acc : ℚ := (vp.1 : ℚ) / (env.valSize : ℚ)
  let st :=
    if acc > st.bestAcc then
      ⟨p, o, s, p, acc⟩
    else
      ⟨p, o, s, st.bestWts, st.bestAcc⟩
  (st, tp.2 ++ [TEvent.schedStep] ++ vp.2)

/-- `for epoch in range(num_epochs)`: iterate `runEpoch`, concatenating the
event traces. -/
def runEpochs (env : TrainEnv P O S B) (st : TState P O S) :
    ℕ → TState P O S × List TEvent
  | 0 => (st, [])
  | n + 1 =>
    let e := runEpoch env st
    let rest := runEpochs env e.1 n
    (rest.1, e.2 ++ rest.2)

/-- `train_model`: initialize `best_model_wts` to a deep copy of the initial
parameters and `best_acc` to `0.0`, run the epoch loop, and finish with
`model.load_state_dict(best_model_wts)`.  Returns the restored parameters
together with the run's event trace. -/
def train_model (env : TrainEnv P O S B) (p0 : P) (o0 : O) (s0 : S)
    (numEpochs : ℕ) : P × List TEvent :=
  let r := runEpochs env ⟨p0, o0, s0, p0, 0⟩ numEpochs
  (r.1.bestWts, r.2)

/-- The per-epoch validation record of a run: for each epoch, the pair of
its validation accuracy and the parameters at its validation phase (the
parameters after that epoch's train phase, unchanged during eval). -/
def trajectory (env : TrainEnv P O S B) (p : P) (o : O) (s : S) :
    ℕ → List (ℚ × P)
  | 0 => []
  | n + 1 =>
    let tp := runTrainPhase env p o s
    (valAcc env tp.1.1, tp.1.1) ::
      trajectory env tp.1.1 tp.1.2 (env.schedStep s) n

/-- The best-snapshot fold of `train_model` in isolation: starting from a
`(best_acc, best_model_wts)` pair, replace it by each epoch's
`(epoch_acc, params)` exactly when `epoch_acc > best_acc`. -/
def selectBest (bw : ℚ × P) (l : List (ℚ × P)) : ℚ × P :=
  l.foldl (fun bw x => if x.1 > bw.1 then x else bw) bw

/-- The event trace a single epoch contributes: every train batch (each with
its optimizer step), then the single `scheduler.step()`, then every
validation batch. -/
def epochEvents (env : TrainEnv P O S B) : List TEvent :=
  List.replicate env.trainLoader.length TEvent.trainBatch ++
    [TEvent.schedStep] ++
    List.replicate env.valLoader.length TEvent.valBatch

/-! ### Qualitative visualizer (`visualize_model`)

The control flow that matters for the stated properties: the count of
rendered examples, the model's train/eval mode, and the failure path of the
`ax = plt.subplot(num_images//2, 2, images_so_far)` call.  Matplotlib's
grid-geometry validation rejects a subplot index above the grid's
`(num_images//2) * 2` cells (in particular a zero-row grid), raising before
the `images_so_far == num_images` early-return test is ever reached.  The
mode is a `Bool` (`True` = training); `was_training` is saved at entry, the
model is set to eval, and both regular exit paths call
`model.train(mode=was_training)`; an exception propagates without restoring
the mode, leaving eval. -/

/-- The inner `for j in range(inputs.size()[0])` loop of `visualize_model`:
per example, increment `images_so_far`, then call
`plt.subplot(num_images//2, 2, images_so_far)` — which raises when the new
index exceeds the grid's `(num_images//2) * 2` cells — then render, then
test `images_so_far == num_images`.  Returns the new count and whether the
early-return condition was hit, or the subplot error. -/
def vizInner (numImages : ℕ) (count : ℕ) : List B → Except String (ℕ × Bool)
  | [] => Except.ok (count, false)
  | _ :: xs =>
    if numImages / 2 * 2 < count + 1 then Except.error "ValueError"
    else if count + 1 = numImages then Except.ok (count + 1, true)
    else vizInner numImages (count + 1) xs

/-- The outer batch loop of `visualize_model`: on early return or on
exhausting the loader, restore `model.train(mode=was_training)`; a subplot
exception propagates with the model still in eval mode.  Returns the final
mode flag and either the number of rendered examples or the error. -/
def vizOuter (wasTraining : Bool) (numImages : ℕ) (count : ℕ) :
    List (List B) → Bool × Except String ℕ
  | [] => (wasTraining, Except.ok count)
  | b :: bs =>
    match vizInner numImages count b with
    | Except.error e => (false, Except.error e)
    | Except.ok (c, true) => (wasTraining, Except.ok c)
    | Except.ok (c, false) => vizOuter wasTraining numImages c bs

/-- `visualize_model`: save `was_training`, set eval mode, loop over the
validation batches rendering examples, and restore the prior mode on both
regular exit paths (an exception leaves eval mode).  Returns (final mode
flag, number of rendered examples or the propagated error). -/
def visualize_model (wasTraining : Bool) (valBatches : List (List B))
    (numImages : ℕ) : Bool × Except String ℕ :=
  vizOuter wasTraining numImages 0 valBatches

/-- Total number of examples in a list of batches. -/
def totalCount (batches : List (List B)) : ℕ :=
  (batches.map List.length).sum

/-! ### Error explorer (`explore_wrong_5x5_rgb`) -/

/-- One misclassified example collected by the scan: the input, the
predicted class id, and the true class id. -/
structure WrongEx (X : Type) where
  input : X
  pred : ℕ
  truth : ℕ
deriving DecidableEq

/-- The full-dataset scan of `explore_wrong_5x5_rgb`: for every example
whose predicted class differs from its label, append it (batch order, then
in-batch index order) to the parallel collections. -/
def collectWrong {X : Type} (predict : X → ℕ)
    (batches : List (List (X × ℕ))) : List (WrongEx X) :=
  batches.flatMap (fun b =>
    b.filterMap (fun e =>
      if predict e.1 ≠ e.2 then some ⟨e.1, predict e.1, e.2⟩ else none))

/-- Modelled from the spec: `numpy.random.default_rng(seed).choice(range(n),
k, replace=replace)`, an opaque external collaborator whose repository-
relevant behaviour is: it raises when `replace` is false and the population
`n` is smaller than the requested sample size `k` (and when the population
is empty), and otherwise it returns `k` indices below `n`, deterministically
in the seed.  The concrete index stream is a deterministic stand-in. -/
def rngChoice (seed : Option ℕ) (n k : ℕ) (replace : Bool) :
    Except String (List ℕ) :=
  if replace = false ∧ n < k then
    Except.error "Cannot take a larger sample than population when replace is False"
  else if n = 0 ∧ 0 < k then
    Except.error "a cannot be empty"
  else
    Except.ok ((List.range k).map (fun i => (seed.getD 0 + i) % n))

/-- The `example_ixs = rng.choice(range(len(gtruths)), 25, replace=replace)`
draw of `explore_wrong_5x5_rgb`, as a function of the scan. -/
def sampledIndices {X : Type} (predict : X → ℕ)
    (batches : List (List (X × ℕ))) (seed : Option ℕ) (replace : Bool) :
    Except String (List ℕ) :=
  rngChoice seed (collectWrong predict batches).length 25 replace

/-- Python list indexing `class_labels[i]`: raises `IndexError` out of
range. -/
def pyIndex (ls : List String) (i : ℕ) : Except String String :=
  match ls[i]? with
  | some v => Except.ok v
  | none => Except.error "IndexError"

/-- The title of one grid cell: `if class_labels:` (Python truthiness, so
`None` and the empty list both take the `else` branch) resolve the ids
through `class_labels`, otherwise render `str(int(y))` / `str(int(y_guess))`
raw. -/
def cellTitle (classLabels : Option (List String)) (y yGuess : ℕ) :
    Except String String :=
  match classLabels with
  | some ls =>
    if ls.isEmpty then
      Except.ok ("True:" ++ toString y ++ ", Guess:" ++ toString yGuess)
    else do
      let t ← pyIndex ls y
      let g ← pyIndex ls yGuess
      Except.ok ("True:" ++ t ++ ", Guess:" ++ g)
  | none =>
    Except.ok ("True:" ++ toString y ++ ", Guess:" ++ toString yGuess)

/-- Render the 25 sampled cells: look up each sampled index in the wrong
collection and build its title (denormalization and `imshow` of the stored
input are side effects on the plotting surface). -/
def renderCells {X : Type} (wrongs : List (WrongEx X))
    (classLabels : Option (List String)) (ixs : List ℕ) :
    Except String (List String) :=
  ixs.mapM (fun ix => do
    let w ← match wrongs[ix]? with
      | some w => Except.ok w
      | none => Except.error "IndexError"
    cellTitle classLabels w.truth w.pred)

/-- `explore_wrong_5x5_rgb`: ignore the model's entry mode `wasTraining`
(the code overwrites it with `model.eval()` and never reads it), scan the
dataset for misclassified examples, draw 25 indices with the seeded
generator, render the grid, and finish with `model.train()`.  An exception
in sampling or rendering propagates before `model.train()` runs, leaving
eval mode.  Returns (final mode flag, outcome). -/
def explore_wrong_5x5_rgb {X : Type} (wasTraining : Bool) (predict : X → ℕ)
    (batches : List (List (X × ℕ))) (classLabels : Option (List String))
    (seed : Option ℕ) (replace : Bool) : Bool × Except String (List String) :=
  let _ := wasTraining
  let wrongs := collectWrong predict batches
  let res : Except String (List String) := do
    let ixs ← sampledIndices predict batches seed replace
    renderCells wrongs classLabels ixs
  match res with
  | Except.ok ts => (true, Except.ok ts)
  | Except.error e => (false, Except.error e)

/-- `true` exactly on `Except.ok`. -/
def isOkB {ε α : Type} : Except ε α → Bool
  | Except.ok _ => true
  | Except.error _ => false

/-! ### Concrete instantiations used to evaluate the embedding

Small concrete environments plugging in trivial collaborators, used to run
the general theorems on explicit inputs. -/

/-- A concrete training environment over `ℕ` parameters: each train-batch
step increments the parameter by one; every validation forward pass scores
zero correct. -/
def cenvZero : TrainEnv ℕ Unit Unit Unit where
  trainBatch := fun p _ _ _ => (p + 1, ())
  valCorrect := fun _ _ => 0
  schedStep := fun _ => ()
  trainLoader := [()]
  valLoader := [()]
  valSize := 1

/-- A concrete training environment over `ℕ` parameters: each train-batch
step increments the parameter by one; a validation forward pass scores one
correct exactly when the parameter equals one (so epoch 0 scores accuracy 1
and every later epoch scores 0). -/
def cenvPeak : TrainEnv ℕ Unit Unit Unit where
  trainBatch := fun p _ _ _ => (p + 1, ())
  valCorrect := fun p _ => if p = 1 then 1 else 0
  schedStep := fun _ => ()
  trainLoader := [()]
  valLoader := [()]
  valSize := 1

/-- A concrete classifier that predicts class 0 for every input. -/
def czero (_ : ℕ) : ℕ := 0

/-- A one-batch dataset with a single example of true class 1, misclassified
by `czero`. -/
def coneWrong : List (List (ℕ × ℕ)) := [[(7, 1)]]

/-- A different one-batch dataset, also with exactly one example
misclassified by `czero`. -/
def coneWrongB : List (List (ℕ × ℕ)) := [[(2, 5)]]

/-! ## Theorems -/

/-- C9: with `num_epochs = 0` the epoch loop body never executes — the
event trace is empty, so no batch, optimizer or scheduler step occurs — and
the returned parameters are the initial parameters, restored from the
best snapshot that was initialized to a deep copy of the initial state. -/
theorem train_model_zero_epochs (env : TrainEnv P O S B) (p0 : P) (o0 : O)
    (s0 : S) : train_model env p0 o0 s0 0 = (p0, []) := rfl

/-- C8: denormalization round-trips normalization: for every channel and
every pixel value `x ∈ [0, 1]`, normalizing with the fixed mean/std and then
applying the display helpers' denormalization (`std * y + mean` followed by
clipping to `[0, 1]`) reconstructs `x` exactly. -/
theorem denorm_roundtrip (c : Fin 3) (x : ℚ) (h0 : 0 ≤ x) (h1 : x ≤ 1) :
    denormChan c (normalizeChan c x) = x := by
  have hstd : normStd c ≠ 0 := by
    fin_cases c <;> norm_num [normStd]
  unfold denormChan normalizeChan
  rw [mul_comm, div_mul_cancel₀ _ hstd, sub_add_cancel, max_eq_right h0,
    min_eq_right h1]

/-- Witness for C8 at channel 0 and pixel value `1/2`. -/
theorem denorm_roundtrip_witness :
    denormChan 0 (normalizeChan 0 (1 / 2)) = 1 / 2 :=
  denorm_roundtrip 0 (1 / 2) (by norm_num) (by norm_num)

/-- C7: the sampled-index draw is deterministic in the seed: two runs with
the same seed, the same replace flag, and misclassified collections of the
same size produce identical sampled indices. -/
theorem sampled_indices_deterministic {X Y : Type} (p1 : X → ℕ) (p2 : Y → ℕ)
    (b1 : List (List (X × ℕ))) (b2 : List (List (Y × ℕ))) (seed : Option ℕ)
    (rep : Bool)
    (h : (collectWrong p1 b1).length = (collectWrong p2 b2).length) :
    sampledIndices p1 b1 seed rep = sampledIndices p2 b2 seed rep := by
  unfold sampledIndices
  rw [h]

/-- Witness for C7: two different datasets, each with exactly one example
misclassified by the constant-zero classifier, yield identical draws. -/
theorem sampled_indices_deterministic_witness :
    sampledIndices czero coneWrong (some 3) true =
      sampledIndices czero coneWrongB (some 3) true :=
  sampled_indices_deterministic czero czero coneWrong coneWrongB (some 3)
    true (by decide)

/-- C3: when the scan finds fewer than 25 misclassified examples and
`replace` is false, the sampling call fails and the failure propagates to
the caller unguarded (the model is left in eval mode, the grid is never
rendered). -/
theorem explore_insufficient_fails {X : Type} (m : Bool) (predict : X → ℕ)
    (batches : List (List (X × ℕ))) (cl : Option (List String))
    (seed : Option ℕ) (h : (collectWrong predict batches).length < 25) :
    explore_wrong_5x5_rgb m predict batches cl seed false =
      (false, Except.error
        "Cannot take a larger sample than population when replace is False") := by
  have hs : sampledIndices predict batches seed false =
      Except.error
        "Cannot take a larger sample than population when replace is False" := by
    unfold sampledIndices rngChoice
    rw [if_pos ⟨rfl, h⟩]
  simp only [explore_wrong_5x5_rgb, hs]
  rfl

/-- Witness for C3: an empty dataset has zero misclassified examples, and
the explorer fails at the sampling call. -/
theorem explore_insufficient_fails_witness :
    explore_wrong_5x5_rgb true czero ([] : List (List (ℕ × ℕ))) none none
        false =
      (false, Except.error
        "Cannot take a larger sample than population when replace is False") :=
  explore_insufficient_fails true czero [] none none (by decide)

/-- C2 counterexample: on a run that returns normally (one misclassified
example, sampling with replacement), the model's final mode flag is the
training mode, not evaluation mode — the final statement of the function is
`model.train()`. -/
theorem explore_mode_cex :
    (explore_wrong_5x5_rgb false czero coneWrong none (some 0) true).1 ≠
      false := by decide

/-- C2 (amended): when `explore_wrong_5x5_rgb` returns normally it leaves
the model in training mode (its final statement is `model.train()`); on an
error path it leaves evaluation mode; in neither case is the mode the model
was in before the call restored — the result is independent of the prior
mode. -/
theorem explore_mode_characterization {X : Type} (m1 m2 : Bool)
    (predict : X → ℕ) (batches : List (List (X × ℕ)))
    (cl : Option (List String)) (seed : Option ℕ) (rep : Bool) :
    explore_wrong_5x5_rgb m1 predict batches cl seed rep =
      explore_wrong_5x5_rgb m2 predict batches cl seed rep ∧
    (explore_wrong_5x5_rgb m1 predict batches cl seed rep).1 =
      isOkB (explore_wrong_5x5_rgb m1 predict batches cl seed rep).2 := by
  refine ⟨rfl, ?_⟩
  simp only [explore_wrong_5x5_rgb]
  split <;> rfl

/-- C10: an empty `class_labels` list is falsy in Python, so the explorer
behaves exactly as with `class_labels=None`: every cell title uses the raw
integer ids and the empty list is never indexed (no index error from it). -/
theorem explore_empty_class_labels {X : Type} (m : Bool) (predict : X → ℕ)
    (batches : List (List (X × ℕ))) (seed : Option ℕ) (rep : Bool) :
    explore_wrong_5x5_rgb m predict batches (some []) seed rep =
      explore_wrong_5x5_rgb m predict batches none seed rep ∧
    ∀ y yGuess : ℕ,
      cellTitle (some []) y yGuess =
        Except.ok ("True:" ++ toString y ++ ", Guess:" ++ toString yGuess) := by
  have hct : cellTitle (some ([] : List String)) = cellTitle none := by
    funext y yGuess
    rfl
  refine ⟨?_, fun y yGuess => rfl⟩
  simp only [explore_wrong_5x5_rgb, renderCells, hct]

/-- The inner example loop under an even maximum (the grid then has exactly
`numImages` cells, so the subplot call cannot raise before the early-return
test): starting below the maximum, it stops exactly on reaching it, so it
renders `min numImages (count + batch length)` examples in total and
reports whether the early-return condition was hit. -/
theorem vizInner_spec (numImages : ℕ)
    (hcells : numImages / 2 * 2 = numImages) :
    ∀ (b : List B) (count : ℕ), count < numImages →
      vizInner numImages count b =
        Except.ok (min numImages (count + b.length),
          decide (numImages ≤ count + b.length)) := by
  intro b
  induction b with
  | nil =>
    intro count hc
    simp [vizInner, Nat.min_eq_right (Nat.le_of_lt hc), Nat.not_le.mpr hc]
  | cons x xs ih =>
    intro count hc
    have hnoerr : ¬ numImages / 2 * 2 < count + 1 := by
      rw [hcells]
      omega
    by_cases hhit : count + 1 = numImages
    · have hle : numImages ≤ count + (x :: xs).length := by
        simp only [List.length_cons]
        omega
      rw [vizInner, if_neg hnoerr, if_pos hhit, Nat.min_eq_left hle,
        decide_eq_true hle, hhit]
    · have hlt : count + 1 < numImages := by omega
      have harith : count + 1 + xs.length = count + (x :: xs).length := by
        simp only [List.length_cons]
        omega
      rw [vizInner, if_neg hnoerr, if_neg hhit, ih (count + 1) hlt, harith]

/-- The outer batch loop under an even maximum renders
`min numImages (count + remaining total)` examples when started strictly
below the maximum, and restores the saved mode flag on both exit paths. -/
theorem vizOuter_spec (w : Bool) (numImages : ℕ)
    (hcells : numImages / 2 * 2 = numImages) :
    ∀ (bs : List (List B)) (count : ℕ), count < numImages →
      vizOuter w numImages count bs =
        (w, Except.ok (min numImages (count + totalCount bs))) := by
  intro bs
  induction bs with
  | nil =>
    intro count hc
    simp [vizOuter, totalCount, Nat.min_eq_right (Nat.le_of_lt hc)]
  | cons b bs ih =>
    intro count hc
    by_cases hle : numImages ≤ count + b.length
    · have htot : numImages ≤ count + totalCount (b :: bs) := by
        have hbl : b.length ≤ totalCount (b :: bs) := by
          simp [totalCount]
        omega
      rw [vizOuter, vizInner_spec numImages hcells b count hc,
        Nat.min_eq_left hle, decide_eq_true hle, Nat.min_eq_left htot]
    · have hlt : count + b.length < numImages := by omega
      have harith : count + b.length + totalCount bs =
          count + totalCount (b :: bs) := by
        simp only [totalCount, List.map_cons, List.sum_cons]
        omega
      rw [vizOuter, vizInner_spec numImages hcells b count hc,
        Nat.min_eq_right (Nat.le_of_lt hlt), decide_eq_false hle]
      show vizOuter w numImages (count + b.length) bs = _
      rw [ih (count + b.length) hlt, harith]

/-- C5 counterexample: with a requested maximum of 0 images, a one-image
validation split and the model initially in training mode, the first
`plt.subplot(0, 2, 1)` call raises (index 1 in a zero-cell grid), nothing
is rendered, and the exception propagates with the model left in eval
mode — the prior training mode is not restored. -/
theorem visualize_zero_images_cex :
    (visualize_model true [[(0 : ℕ)]] 0).1 ≠ true ∧
    visualize_model true [[(0 : ℕ)]] 0 = (false, Except.error "ValueError") :=
  ⟨by decide, rfl⟩

/-- C5 (amended): for every even requested maximum `num_images ≥ 2` and
every validation split, the visualizer renders exactly
`min num_images total` examples — at most the requested maximum, and
exactly the split total (exhausting the split) when the split is smaller —
and restores the model's prior train/eval mode on both exit paths.  (For
`num_images` 0 or 1, and for odd `num_images` once `images_so_far` exceeds
the grid's `(num_images//2)*2` cells, the subplot call instead raises
mid-loop and the model is left in eval mode without restoration.) -/
theorem visualize_model_bound (w : Bool) (bs : List (List B))
    (numImages : ℕ) (h1 : numImages ≠ 0) (h2 : 2 ∣ numImages) :
    visualize_model w bs numImages =
      (w, Except.ok (min numImages (totalCount bs))) := by
  have hcells : numImages / 2 * 2 = numImages := Nat.div_mul_cancel h2
  have hpos : 0 < numImages := Nat.pos_of_ne_zero h1
  simpa [visualize_model] using vizOuter_spec w numImages hcells bs 0 hpos

/-- Witness for C5 at `num_images = 2` over a split of four examples in two
batches, with the model initially in training mode. -/
theorem visualize_model_bound_witness :
    visualize_model true [[(0 : ℕ), 1, 2], [3]] 2 =
      (true, Except.ok (min 2 (totalCount [[(0 : ℕ), 1, 2], [3]]))) :=
  visualize_model_bound true [[(0 : ℕ), 1, 2], [3]] 2 (by decide) (by decide)

/-- A fold that appends one fixed event to the trace per element contributes
one replicated event per list element. -/
theorem foldl_trace {α β : Type} (g : α → β → α) (ev : TEvent) :
    ∀ (l : List β) (a : α) (t : List TEvent),
      (l.foldl (fun acc b => (g acc.1 b, acc.2 ++ [ev])) (a, t)).2 =
        t ++ List.replicate l.length ev := by
  intro l
  induction l with
  | nil => intro a t; simp
  | cons x xs ih =>
    intro a t
    rw [List.foldl_cons, ih (g a x) (t ++ [ev])]
    simp [List.replicate_succ]

/-- The train phase emits exactly one `trainBatch` event per train batch. -/
theorem runTrainPhase_trace (env : TrainEnv P O S B) (p : P) (o : O)
    (s : S) :
    (runTrainPhase env p o s).2 =
      List.replicate env.trainLoader.length TEvent.trainBatch := by
  simpa [runTrainPhase] using
    foldl_trace (fun (po : P × O) b => env.trainBatch po.1 po.2 s b)
      TEvent.trainBatch env.trainLoader (p, o) []

/-- The validation phase emits exactly one `valBatch` event per validation
batch. -/
theorem runValPhase_trace (env : TrainEnv P O S B) (p : P) :
    (runValPhase env p).2 =
      List.replicate env.valLoader.length TEvent.valBatch := by
  simpa [runValPhase] using
    foldl_trace (fun (c : ℕ) b => c + env.valCorrect p b) TEvent.valBatch
      env.valLoader 0 []

/-- Every epoch contributes the same event trace: all train batches, then
the single scheduler step, then all validation batches. -/
theorem runEpoch_trace (env : TrainEnv P O S B) (st : TState P O S) :
    (runEpoch env st).2 = epochEvents env := by
  simp only [runEpoch, epochEvents]
  rw [runTrainPhase_trace, runValPhase_trace]

/-- The epoch loop's trace is the concatenation of one epoch trace per
epoch. -/
theorem runEpochs_trace (env : TrainEnv P O S B) :
    ∀ (n : ℕ) (st : TState P O S),
      (runEpochs env st n).2 =
        List.flatten (List.replicate n (epochEvents env)) := by
  intro n
  induction n with
  | zero => intro st; rfl
  | succ n ih =>
    intro st
    rw [runEpochs]
    simp only [List.replicate_succ, List.flatten_cons]
    rw [ih, runEpoch_trace]

/-- C4: in every run of `train_model`, each epoch's event trace is its train
batches, then exactly one `scheduler.step()`, then its validation batches —
so the scheduler is stepped exactly once per epoch, after all train batches
of that epoch, and never during a validation phase. -/
theorem train_model_scheduler_trace (env : TrainEnv P O S B) (p0 : P)
    (o0 : O) (s0 : S) (n : ℕ) :
    (train_model env p0 o0 s0 n).2 =
      List.flatten (List.replicate n (epochEvents env)) ∧
    (epochEvents env).count TEvent.schedStep = 1 ∧
    ((train_model env p0 o0 s0 n).2).count TEvent.schedStep = n := by
  have hjoin : (train_model env p0 o0 s0 n).2 =
      List.flatten (List.replicate n (epochEvents env)) :=
    runEpochs_trace env n ⟨p0, o0, s0, p0, 0⟩
  have hone : (epochEvents env).count TEvent.schedStep = 1 := by
    simp [epochEvents, List.count_append, List.count_replicate]
  refine ⟨hjoin, hone, ?_⟩
  rw [hjoin, List.count_flatten]
  simp [hone, List.map_replicate]

/-- Decomposition of the epoch loop: its final `(best_acc, best_model_wts)`
pair is the best-snapshot fold of the per-epoch validation records, started
from the entry bookkeeping. -/
theorem runEpochs_best (env : TrainEnv P O S B) :
    ∀ (n : ℕ) (st : TState P O S),
      ((runEpochs env st n).1.bestAcc, (runEpochs env st n).1.bestWts) =
        selectBest (st.bestAcc, st.bestWts)
          (trajectory env st.params st.opt st.sched n) := by
  intro n
  induction n with
  | zero => intro st; rfl
  | succ n ih =>
    intro st
    have hrun : runEpochs env st (n + 1) =
        ((runEpochs env (runEpoch env st).1 n).1,
          (runEpoch env st).2 ++ (runEpochs env (runEpoch env st).1 n).2) :=
      rfl
    rw [hrun]
    rw [ih ((runEpoch env st).1)]
    simp only [runEpoch, trajectory, selectBest, List.foldl_cons, valAcc]
    split <;> rfl

/-- If no record strictly beats the starting accuracy, the best-snapshot
fold keeps its starting pair. -/
theorem selectBest_of_all_le (l : List (ℚ × P)) :
    ∀ bw : ℚ × P, (∀ x ∈ l, x.1 ≤ bw.1) → selectBest bw l = bw := by
  induction l with
  | nil => intro bw _; rfl
  | cons x xs ih =>
    intro bw h
    have hx : ¬ x.1 > bw.1 := not_lt.mpr (h x (List.mem_cons_self x xs))
    have hstep : selectBest bw (x :: xs) = selectBest bw xs := by
      simp only [selectBest, List.foldl_cons, if_neg hx]
    rw [hstep]
    exact ih bw (fun y hy => h y (List.mem_cons_of_mem x hy))

/-- The best-snapshot fold either keeps its starting pair (when nothing
strictly beats it) or returns the earliest record attaining the maximum
accuracy: a record strictly above the start, at least as high as every
record, and strictly above every record before it. -/
theorem selectBest_spec (l : List (ℚ × P)) :
    ∀ bw : ℚ × P,
      (selectBest bw l = bw ∧ ∀ x ∈ l, x.1 ≤ bw.1) ∨
      (∃ pre a post, l = pre ++ a :: post ∧ selectBest bw l = a ∧
        bw.1 < a.1 ∧ (∀ y ∈ l, y.1 ≤ a.1) ∧ ∀ y ∈ pre, y.1 < a.1) := by
  induction l with
  | nil => intro bw; left; exact ⟨rfl, by simp⟩
  | cons x xs ih =>
    intro bw
    by_cases hx : x.1 > bw.1
    · have hstep : selectBest bw (x :: xs) = selectBest x xs := by
        simp only [selectBest, List.foldl_cons, if_pos hx]
      rcases ih x with ⟨heq, hall⟩ | ⟨pre, a, post, hsplit, heq, hlt, hall, hpre⟩
      · right
        refine ⟨[], x, xs, by simp, by rw [hstep, heq], hx, ?_, by simp⟩
        intro y hy
        rcases List.mem_cons.mp hy with hy | hy
        · exact le_of_eq (by rw [hy])
        · exact hall y hy
      · right
        refine ⟨x :: pre, a, post, by rw [hsplit, List.cons_append],
          by rw [hstep, heq], lt_trans hx hlt, ?_, ?_⟩
        · intro y hy
          rcases List.mem_cons.mp hy with hy | hy
          · exact le_of_lt (by rw [hy]; exact hlt)
          · exact hall y hy
        · intro y hy
          rcases List.mem_cons.mp hy with hy | hy
          · rw [hy]; exact hlt
          · exact hpre y hy
    · have hstep : selectBest bw (x :: xs) = selectBest bw xs := by
        simp only [selectBest, List.foldl_cons, if_neg hx]
      rcases ih bw with ⟨heq, hall⟩ | ⟨pre, a, post, hsplit, heq, hlt, hall, hpre⟩
      · left
        refine ⟨by rw [hstep, heq], ?_⟩
        intro y hy
        rcases List.mem_cons.mp hy with hy | hy
        · rw [hy]; exact not_lt.mp hx
        · exact hall y hy
      · right
        refine ⟨x :: pre, a, post, by rw [hsplit, List.cons_append],
          by rw [hstep, heq], hlt, ?_, ?_⟩
        · intro y hy
          rcases List.mem_cons.mp hy with hy | hy
          · rw [hy]; exact le_of_lt (lt_of_le_of_lt (not_lt.mp hx) hlt)
          · exact hall y hy
        · intro y hy
          rcases List.mem_cons.mp hy with hy | hy
          · rw [hy]; exact lt_of_le_of_lt (not_lt.mp hx) hlt
          · exact hpre y hy

/-- Evaluation of the one-epoch `cenvZero` run: the only validation phase
records accuracy 0 with the parameters at 1. -/
theorem trajZero_eval : trajectory cenvZero 0 () () 1 = [(0, 1)] := by
  norm_num [trajectory, runTrainPhase, runValPhase, valAcc, cenvZero]

/-- Evaluation of the one-epoch `cenvZero` run: the returned parameters are
the initial 0. -/
theorem trainZero_eval : (train_model cenvZero 0 () () 1).1 = 0 := by
  norm_num [train_model, runEpochs, runEpoch, runTrainPhase, runValPhase,
    cenvZero]

/-- Evaluation of the two-epoch `cenvPeak` run: epoch 0 records accuracy 1
at parameters 1, epoch 1 records accuracy 0 at parameters 2. -/
theorem trajPeak_eval : trajectory cenvPeak 0 () () 2 = [(1, 1), (0, 2)] := by
  norm_num [trajectory, runTrainPhase, runValPhase, valAcc, cenvPeak]

/-- C1 counterexample: one epoch whose validation accuracy is 0 (the sole
and hence highest recorded accuracy).  The snapshot at that validation
phase holds parameters 1, but `train_model` returns the initial parameters
0 — the zero accuracy never strictly beats the initial `best_acc = 0.0`
baseline, so the returned parameters are not the highest-accuracy epoch's
snapshot. -/
theorem train_model_best_cex :
    trajectory cenvZero 0 () () 1 = [(0, 1)] ∧
    (train_model cenvZero 0 () () 1).1 ≠ 1 :=
  ⟨trajZero_eval, by rw [trainZero_eval]; decide⟩

/-- C1 (amended): for every run in which some epoch records a strictly
positive validation accuracy, the returned parameters equal the deep-copied
snapshot taken at the earliest validation phase attaining the highest
recorded validation accuracy (ties keep the earliest snapshot, because the
snapshot is replaced only on strict improvement).  When every epoch records
accuracy 0 — never strictly exceeding the initial `0.0` baseline — the
initial snapshot is returned instead. -/
theorem train_model_best_snapshot (env : TrainEnv P O S B) (p0 : P) (o0 : O)
    (s0 : S) (n : ℕ)
    (h : ∃ x ∈ trajectory env p0 o0 s0 n, 0 < x.1) :
    ∃ pre a post,
      trajectory env p0 o0 s0 n = pre ++ a :: post ∧
      (train_model env p0 o0 s0 n).1 = a.2 ∧
      (∀ y ∈ trajectory env p0 o0 s0 n, y.1 ≤ a.1) ∧
      ∀ y ∈ pre, y.1 < a.1 := by
  have hdec := runEpochs_best env n ⟨p0, o0, s0, p0, 0⟩
  rcases selectBest_spec (trajectory env p0 o0 s0 n) ((0 : ℚ), p0) with
    ⟨_, hall⟩ | ⟨pre, a, post, hsplit, heq, _, hall, hpre⟩
  · rcases h with ⟨x, hx, hxpos⟩
    exact absurd (hall x hx) (not_le.mpr hxpos)
  · refine ⟨pre, a, post, hsplit, ?_, hall, hpre⟩
    have : (train_model env p0 o0 s0 n).1 =
        (selectBest ((0 : ℚ), p0) (trajectory env p0 o0 s0 n)).2 :=
      congrArg Prod.snd hdec
    rw [this, heq]

/-- Witness for C1 over `cenvPeak` with two epochs: the recorded accuracies
are `[1, 0]`, and the returned parameters are the epoch-0 snapshot. -/
theorem train_model_best_snapshot_witness :
    ∃ pre a post,
      trajectory cenvPeak 0 () () 2 = pre ++ a :: post ∧
      (train_model cenvPeak 0 () () 2).1 = a.2 ∧
      (∀ y ∈ trajectory cenvPeak 0 () () 2, y.1 ≤ a.1) ∧
      ∀ y ∈ pre, y.1 < a.1 :=
  train_model_best_snapshot cenvPeak 0 () () 2
    (by rw [trajPeak_eval]; decide)

/-- Evaluation of the two-epoch `cenvPeak` run started from parameters 5:
every epoch of this run records validation accuracy 0 (the reachable
parameter states are 6 and 7, never the peak state 1). -/
theorem trajPeak5_eval : trajectory cenvPeak 5 () () 2 = [(0, 6), (0, 7)] := by
  norm_num [trajectory, runTrainPhase, runValPhase, valAcc, cenvPeak]

/-- C6: if during a run every epoch records validation accuracy 0 — never
strictly exceeding the initial `best_acc = 0.0` baseline — the returned
parameters are the initial parameters at entry, unchanged by the
best-snapshot mechanism. -/
theorem train_model_no_improvement (env : TrainEnv P O S B) (p0 : P)
    (o0 : O) (s0 : S) (n : ℕ)
    (h : ∀ x ∈ trajectory env p0 o0 s0 n, x.1 = 0) :
    (train_model env p0 o0 s0 n).1 = p0 := by
  have hdec := runEpochs_best env n ⟨p0, o0, s0, p0, 0⟩
  have hall : ∀ x ∈ trajectory env p0 o0 s0 n, x.1 ≤ ((0 : ℚ), p0).1 :=
    fun x hx => le_of_eq (h x hx)
  have hkeep := selectBest_of_all_le (trajectory env p0 o0 s0 n)
    ((0 : ℚ), p0) hall
  have hsnd : (train_model env p0 o0 s0 n).1 =
      (selectBest ((0 : ℚ), p0) (trajectory env p0 o0 s0 n)).2 :=
    congrArg Prod.snd hdec
  rw [hsnd, hkeep]

/-- Witness for C6 over `cenvPeak` started from parameters 5 with two
epochs: both epochs of this run record accuracy 0 (although other parameter
states would score 1), training moves the parameters to 7, and the returned
parameters are the initial 5. -/
theorem train_model_no_improvement_witness :
    (train_model cenvPeak 5 () () 2).1 = 5 :=
  train_model_no_improvement cenvPeak 5 () () 2
    (by rw [trajPeak5_eval]; decide)

end Task3
